import Mathlib

/-!
Verification development for the embedded-script language mode
(src/server/src/modes/script/javascript.ts).

The file shallowly embeds the data model and the operations of the script
mode facade.  External collaborators (the text-document position model, the
path normalisation helpers, the null mode constants, the service host and
the component discovery module) are not under src/; their behaviour is
modelled from the specification and each such definition carries a doc
comment saying so.  All numbers are Nat; strings are Lean String.
-/

/-- Protocol position: zero-based line and character. -/
structure Position where
  line : Nat
  character : Nat
deriving DecidableEq, Repr

/-- Protocol range.  The source field named end is a Lean keyword, so the
field is called stop here. -/
structure Range where
  start : Position
  stop : Position
deriving DecidableEq, Repr

/-- Backing engine span: start offset and length (ts.TextSpan). -/
structure TextSpan where
  start : Nat
  length : Nat
deriving DecidableEq, Repr

/-- Modelled from the spec: the synthetic standalone view of the script
region.  Only the content is needed by the operations embedded here; the
content is the character list of the embedded document text. -/
structure TextDocument where
  content : List Char
deriving DecidableEq, Repr

/-- Modelled from the spec: offsets at which lines start, after a given
base offset.  A new line starts right after each newline character. -/
def lineOffsetsAux : List Char → Nat → List Nat
  | [], _ => []
  | c :: rest, i =>
    if c = '\n' then (i + 1) :: lineOffsetsAux rest (i + 1)
    else lineOffsetsAux rest (i + 1)

/-- Modelled from the spec: the list of line start offsets of a document;
line 0 always starts at offset 0. -/
def lineOffsets (s : List Char) : List Nat :=
  0 :: lineOffsetsAux s 0

/-- Modelled from the spec: index of the last line whose start offset is at
most the given offset (the binary search of the external text document
implementation, rendered as a scan). -/
def findLine : List Nat → Nat → Nat
  | [], _ => 0
  | [_], _ => 0
  | _ :: b :: rest, o => if o < b then 0 else findLine (b :: rest) o + 1

/-- Modelled from the spec: resolve an offset to a line/character position;
the offset is clamped to the document length. -/
def positionAt (d : TextDocument) (offset : Nat) : Position :=
  let o := min offset d.content.length
  let offs := lineOffsets d.content
  let line := findLine offs o
  { line := line, character := o - offs.getD line 0 }

/-- Modelled from the spec: resolve a line/character position to an offset;
lines past the end map to the document length, and the character is clamped
to the line. -/
def offsetAt (d : TextDocument) (p : Position) : Nat :=
  let offs := lineOffsets d.content
  if p.line ≥ offs.length then d.content.length
  else
    let lineOffset := offs.getD p.line 0
    let nextLineOffset :=
      if p.line + 1 < offs.length then offs.getD (p.line + 1) 0
      else d.content.length
    max (min (lineOffset + p.character) nextLineOffset) lineOffset

/-- Source convertRange: resolve the span start and the span end against the
document and return the enclosing range. -/
def convertRange (document : TextDocument) (span : TextSpan) : Range :=
  { start := positionAt document span.start
    stop := positionAt document (span.start + span.length) }

/-- Protocol completion item kinds (vscode-languageserver-types). -/
inductive CompletionItemKind where
  | Text | Method | Function | Constructor | Field | Variable | Class
  | Interface | Module | Property | Unit | Value | Enum | Keyword
  | Snippet | Color | File | Reference
deriving DecidableEq, Repr

/-- Protocol symbol kinds (vscode-languageserver-types). -/
inductive SymbolKind where
  | File | Module | Namespace | Package | Class | Method | Property
  | Field | Constructor | Enum | Interface | Function | Variable
  | Constant | String | Number | Boolean | Array
deriving DecidableEq, Repr

/-- Source convertKind: classify a backing engine entry kind string into a
completion item kind; the switch is rendered as an if chain with the case
groups in source order, and the fall through default is Property. -/
def convertKind (kind : String) : CompletionItemKind :=
  if kind = "primitive type" ∨ kind = "keyword" then .Keyword
  else if kind = "var" ∨ kind = "local var" then .Variable
  else if kind = "property" ∨ kind = "getter" ∨ kind = "setter" then .Field
  else if kind = "function" ∨ kind = "method" ∨ kind = "construct" ∨ kind = "call" ∨ kind = "index" then .Function
  else if kind = "enum" then .Enum
  else if kind = "module" then .Module
  else if kind = "class" then .Class
  else if kind = "interface" then .Interface
  else if kind = "warning" then .File
  else .Property

/-- Source convertSymbolKind: classify a backing engine entry kind string
into a symbol kind; the fall through default is Variable. -/
def convertSymbolKind (kind : String) : SymbolKind :=
  if kind = "var" ∨ kind = "local var" ∨ kind = "const" then .Variable
  else if kind = "function" ∨ kind = "local function" then .Function
  else if kind = "enum" then .Enum
  else if kind = "module" then .Module
  else if kind = "class" then .Class
  else if kind = "interface" then .Interface
  else if kind = "method" then .Method
  else if kind = "property" ∨ kind = "getter" ∨ kind = "setter" then .Property
  else .Variable

/-- Keys matched by the convertKind switch, in source order. -/
def convertKindKeys : List String :=
  ["primitive type", "keyword", "var", "local var", "property", "getter",
   "setter", "function", "method", "construct", "call", "index", "enum",
   "module", "class", "interface", "warning"]

/-- Keys matched by the convertSymbolKind switch, in source order. -/
def convertSymbolKindKeys : List String :=
  ["var", "local var", "const", "function", "local function", "enum",
   "module", "class", "interface", "method", "property", "getter", "setter"]

/-- Protocol text edit. -/
structure TextEdit where
  range : Range
  newText : String
deriving DecidableEq, Repr

/-- Protocol diagnostic severity. -/
inductive DiagnosticSeverity where
  | Error | Warning | Information | Hint
deriving DecidableEq, Repr

/-- Protocol diagnostic as built by doValidation. -/
structure Diagnostic where
  range : Range
  severity : DiagnosticSeverity
  message : String
deriving DecidableEq, Repr

/-- Correlation payload attached to completion items (the data field used
by doResolve). -/
structure CompletionItemData where
  languageId : String
  uri : String
  offset : Nat
deriving DecidableEq, Repr

/-- Protocol completion item as built by doComplete.  The source also puts
uri and position fields on the item, so they are kept here. -/
structure CompletionItem where
  label : String
  uri : Option String := none
  position : Option Position := none
  sortText : Option String := none
  kind : Option CompletionItemKind := none
  textEdit : Option TextEdit := none
  data : Option CompletionItemData := none
  detail : Option String := none
  documentation : Option String := none
deriving DecidableEq, Repr

/-- Protocol completion list. -/
structure CompletionList where
  isIncomplete : Bool
  items : List CompletionItem
deriving DecidableEq, Repr

/-- Hover content entry: either a plain marked string or a language tagged
code block. -/
inductive MarkedString where
  | plain (value : String)
  | code (language : String) (value : String)
deriving DecidableEq, Repr

/-- Protocol hover. -/
structure Hover where
  contents : List MarkedString
  range : Option Range := none
deriving DecidableEq, Repr

/-- Protocol signature parameter information. -/
structure ParameterInformation where
  label : String
  documentation : String
deriving DecidableEq, Repr

/-- Protocol signature information. -/
structure SignatureInformation where
  label : String
  documentation : Option String
  parameters : List ParameterInformation
deriving DecidableEq, Repr

/-- Protocol signature help. -/
structure SignatureHelp where
  activeSignature : Nat
  activeParameter : Nat
  signatures : List SignatureInformation
deriving DecidableEq, Repr

/-- Protocol document highlight kind. -/
inductive DocumentHighlightKind where
  | Text | Read | Write
deriving DecidableEq, Repr

/-- Protocol document highlight. -/
structure DocumentHighlight where
  range : Range
  kind : DocumentHighlightKind
deriving DecidableEq, Repr

/-- Protocol location. -/
structure Location where
  uri : String
  range : Range
deriving DecidableEq, Repr

/-- Protocol symbol information as built by findDocumentSymbols. -/
structure SymbolInformation where
  name : String
  kind : SymbolKind
  location : Location
  containerName : Option String
deriving DecidableEq, Repr

/-- Modelled from the spec: result of the external component discovery
module (findComponents.ts is not under src/); only the name matters here. -/
structure ComponentInfo where
  name : String
deriving DecidableEq, Repr

/-- Modelled from the spec: ts.displayPartsToString, the concatenation of
the text of the display parts; display part lists are modelled as lists of
their text, with the empty list standing for an absent list. -/
def displayPartsToString (parts : List String) : String :=
  String.join parts

/-- Modelled from the spec: ts.flattenDiagnosticMessageText on a message
that is already a plain string is that string. -/
def flattenDiagnosticMessageText (messageText : String) : String :=
  messageText

/-- Backing engine diagnostic: a span plus a message. -/
structure EngineDiagnostic where
  start : Nat
  length : Nat
  messageText : String
deriving DecidableEq, Repr

/-- Backing engine completion entry. -/
structure CompletionEntry where
  name : String
  kind : String
  sortText : String
  replacementSpan : Option TextSpan
deriving DecidableEq, Repr

/-- Backing engine completion info. -/
structure CompletionInfo where
  entries : List CompletionEntry
deriving DecidableEq, Repr

/-- Backing engine completion entry details. -/
structure CompletionEntryDetails where
  displayParts : List String
  documentation : List String
deriving DecidableEq, Repr

/-- Backing engine quick info. -/
structure QuickInfo where
  textSpan : TextSpan
  displayParts : List String
  documentation : List String
deriving DecidableEq, Repr

/-- Backing engine signature help parameter. -/
structure SignHelpParameter where
  displayParts : List String
  documentation : List String
deriving DecidableEq, Repr

/-- Backing engine signature help item. -/
structure SignHelpItem where
  prefixDisplayParts : List String
  suffixDisplayParts : List String
  separatorDisplayParts : List String
  parameters : List SignHelpParameter
deriving DecidableEq, Repr

/-- Backing engine signature help items group. -/
structure SignHelpItems where
  selectedItemIndex : Nat
  argumentIndex : Nat
  items : List SignHelpItem
deriving DecidableEq, Repr

/-- Backing engine occurrence. -/
structure Occurrence where
  textSpan : TextSpan
  isWriteAccess : Bool
deriving DecidableEq, Repr

/-- Backing engine definition or reference target: a file name plus a span
in that file. -/
structure DefinitionTarget where
  fileName : String
  textSpan : TextSpan
deriving DecidableEq, Repr

/-- Backing engine formatting edit (ts.TextChange). -/
structure TsTextChange where
  span : TextSpan
  newText : String
deriving DecidableEq, Repr

mutual
/-- Backing engine navigation bar item: text, kind, spans and children.
The child array is modelled by the mutually defined NavItemList so that the
traversal below is structurally recursive. -/
inductive NavigationBarItem where
  | mk (text : String) (kind : String) (spans : List TextSpan) (childItems : NavItemList)

/-- List of navigation bar items (the child array of a navigation node). -/
inductive NavItemList where
  | nil
  | cons (head : NavigationBarItem) (tail : NavItemList)
end

/-- Text of a navigation bar item. -/
def NavigationBarItem.text : NavigationBarItem → String
  | .mk t _ _ _ => t

/-- Kind of a navigation bar item. -/
def NavigationBarItem.kind : NavigationBarItem → String
  | .mk _ k _ _ => k

/-- Spans of a navigation bar item. -/
def NavigationBarItem.spans : NavigationBarItem → List TextSpan
  | .mk _ _ s _ => s

/-- Children of a navigation bar item. -/
def NavigationBarItem.childItems : NavigationBarItem → NavItemList
  | .mk _ _ _ c => c

/-- State threaded through the outline traversal: the seen signature keys
and the emitted symbols, both in order (the source uses a mutable string
map and a mutable result array shared by the whole traversal). -/
structure SymTraverseState where
  existing : List String
  result : List SymbolInformation
deriving DecidableEq, Repr

/-- Signature key of a navigation bar item: text, kind and the start of the
first span concatenated, as in the source (item.text + item.kind +
item.spans[0].start).  An item always has at least one span; headD keeps
the function total. -/
def navItemSig (item : NavigationBarItem) : String :=
  item.text ++ item.kind ++ toString ((item.spans.headD { start := 0, length := 0 }).start)

mutual
/-- Source collectSymbols (the inner closure of findDocumentSymbols): skip
emission for the synthetic script kind or for an already seen signature,
otherwise emit a symbol with the current container label, record the
signature and switch the container label to the item text; children are
always visited. -/
def collectSymbols (uri : String) (scriptDoc : TextDocument) :
    NavigationBarItem → Option String → SymTraverseState → SymTraverseState
  | .mk text kind spans childItems, containerLabel, st =>
    let sig := text ++ kind ++ toString ((spans.headD { start := 0, length := 0 }).start)
    if kind ≠ "script" ∧ sig ∉ st.existing then
      collectSymbolsList uri scriptDoc childItems (some text)
        { existing := st.existing ++ [sig]
          result := st.result ++
            [{ name := text
               kind := convertSymbolKind kind
               location := { uri := uri, range := convertRange scriptDoc (spans.headD { start := 0, length := 0 }) }
               containerName := containerLabel }] }
    else
      collectSymbolsList uri scriptDoc childItems containerLabel st

/-- Traversal of a list of navigation bar items in order, threading the
shared state. -/
def collectSymbolsList (uri : String) (scriptDoc : TextDocument) :
    NavItemList → Option String → SymTraverseState → SymTraverseState
  | .nil, _, st => st
  | .cons i rest, containerLabel, st =>
    collectSymbolsList uri scriptDoc rest containerLabel
      (collectSymbols uri scriptDoc i containerLabel st)
end

/-- Indent style of the backing engine formatter (ts.IndentStyle). -/
inductive IndentStyle where
  | None | Block | Smart
deriving DecidableEq, Repr

/-- Host formatting options (protocol FormattingOptions plus the
scriptInitialIndent flag the source reads from formatParams). -/
structure FormattingOptions where
  tabSize : Nat
  insertSpaces : Bool
  scriptInitialIndent : Bool
deriving DecidableEq, Repr

/-- Settings object handed to the backing engine formatter
(ts.FormatCodeOptions).  Every field is an Option: none stands for the
JavaScript value undefined on that field. -/
structure TsFormatCodeOptions where
  ConvertTabsToSpaces : Option Bool
  TabSize : Option Nat
  IndentSize : Option Nat
  IndentStyle : Option IndentStyle
  NewLineCharacter : Option String
  BaseIndentSize : Option Nat
  InsertSpaceAfterCommaDelimiter : Option Bool
  InsertSpaceAfterSemicolonInForStatements : Option Bool
  InsertSpaceAfterKeywordsInControlFlowStatements : Option Bool
  InsertSpaceAfterFunctionKeywordForAnonymousFunctions : Option Bool
  InsertSpaceAfterOpeningAndBeforeClosingNonemptyParenthesis : Option Bool
  InsertSpaceAfterOpeningAndBeforeClosingNonemptyBrackets : Option Bool
  InsertSpaceAfterOpeningAndBeforeClosingTemplateStringBraces : Option Bool
  InsertSpaceBeforeFunctionParenthesis : Option Bool
  InsertSpaceBeforeAndAfterBinaryOperators : Option Bool
  PlaceOpenBraceOnNewLineForControlBlocks : Option Bool
  PlaceOpenBraceOnNewLineForFunctions : Option Bool
deriving DecidableEq, Repr

/-- Language specific configuration overrides (config.vetur.format.js).  A
field that is none is absent from the configuration object; lodash assign
copies only present fields over the defaults. -/
structure JsFormatConfig where
  ConvertTabsToSpaces : Option Bool := none
  TabSize : Option Nat := none
  IndentSize : Option Nat := none
  IndentStyle : Option IndentStyle := none
  NewLineCharacter : Option String := none
  BaseIndentSize : Option Nat := none
  InsertSpaceAfterCommaDelimiter : Option Bool := none
  InsertSpaceAfterSemicolonInForStatements : Option Bool := none
  InsertSpaceAfterKeywordsInControlFlowStatements : Option Bool := none
  InsertSpaceAfterFunctionKeywordForAnonymousFunctions : Option Bool := none
  InsertSpaceAfterOpeningAndBeforeClosingNonemptyParenthesis : Option Bool := none
  InsertSpaceAfterOpeningAndBeforeClosingNonemptyBrackets : Option Bool := none
  InsertSpaceAfterOpeningAndBeforeClosingTemplateStringBraces : Option Bool := none
  InsertSpaceBeforeFunctionParenthesis : Option Bool := none
  InsertSpaceBeforeAndAfterBinaryOperators : Option Bool := none
  PlaceOpenBraceOnNewLineForControlBlocks : Option Bool := none
  PlaceOpenBraceOnNewLineForFunctions : Option Bool := none
deriving DecidableEq, Repr

/-- Source convertOptions: the default settings object for the given host
options and initial indent level, with every field present in the
configuration overriding the default (the lodash assign of the source). -/
def convertOptions (options : FormattingOptions) (formatSettings : JsFormatConfig)
    (initialIndentLevel : Nat) : TsFormatCodeOptions :=
  { ConvertTabsToSpaces := some (formatSettings.ConvertTabsToSpaces.getD options.insertSpaces)
    TabSize := some (formatSettings.TabSize.getD options.tabSize)
    IndentSize := some (formatSettings.IndentSize.getD options.tabSize)
    IndentStyle := some (formatSettings.IndentStyle.getD .Smart)
    NewLineCharacter := some (formatSettings.NewLineCharacter.getD "\n")
    BaseIndentSize := some (formatSettings.BaseIndentSize.getD (options.tabSize * initialIndentLevel))
    InsertSpaceAfterCommaDelimiter := some (formatSettings.InsertSpaceAfterCommaDelimiter.getD true)
    InsertSpaceAfterSemicolonInForStatements := some (formatSettings.InsertSpaceAfterSemicolonInForStatements.getD true)
    InsertSpaceAfterKeywordsInControlFlowStatements := some (formatSettings.InsertSpaceAfterKeywordsInControlFlowStatements.getD true)
    InsertSpaceAfterFunctionKeywordForAnonymousFunctions := some (formatSettings.InsertSpaceAfterFunctionKeywordForAnonymousFunctions.getD true)
    InsertSpaceAfterOpeningAndBeforeClosingNonemptyParenthesis := some (formatSettings.InsertSpaceAfterOpeningAndBeforeClosingNonemptyParenthesis.getD false)
    InsertSpaceAfterOpeningAndBeforeClosingNonemptyBrackets := some (formatSettings.InsertSpaceAfterOpeningAndBeforeClosingNonemptyBrackets.getD false)
    InsertSpaceAfterOpeningAndBeforeClosingTemplateStringBraces := some (formatSettings.InsertSpaceAfterOpeningAndBeforeClosingTemplateStringBraces.getD false)
    InsertSpaceBeforeFunctionParenthesis := some (formatSettings.InsertSpaceBeforeFunctionParenthesis.getD true)
    InsertSpaceBeforeAndAfterBinaryOperators := some (formatSettings.InsertSpaceBeforeAndAfterBinaryOperators.getD true)
    PlaceOpenBraceOnNewLineForControlBlocks := some (formatSettings.PlaceOpenBraceOnNewLineForControlBlocks.getD false)
    PlaceOpenBraceOnNewLineForFunctions := some (formatSettings.PlaceOpenBraceOnNewLineForFunctions.getD false) }

/-- Settings actually handed to the engine by format: convertOptions for
the derived initial indent level, then the anonymous function spacing field
overwritten with the raw configuration value of
InsertSpaceBeforeFunctionParenthesis (undefined when that key is absent),
exactly as on the source line after the convertOptions call. -/
def buildFormatSettings (formatParams : FormattingOptions) (jsConfig : JsFormatConfig) :
    TsFormatCodeOptions :=
  let initialIndentLevel := if formatParams.scriptInitialIndent then 1 else 0
  let formatSettings := convertOptions formatParams jsConfig initialIndentLevel
  { formatSettings with
      InsertSpaceAfterFunctionKeywordForAnonymousFunctions :=
        jsConfig.InsertSpaceBeforeFunctionParenthesis }

/-- Backing engine surface (the ts.LanguageService methods the mode calls),
as pure functions keyed by file path and offset.  A none result models an
undefined return value. -/
structure Engine where
  rootFileNames : List String
  getSyntacticDiagnostics : String → List EngineDiagnostic
  getSemanticDiagnostics : String → List EngineDiagnostic
  getCompletionsAtPosition : String → Nat → Option CompletionInfo
  getCompletionEntryDetails : String → Nat → String → Option CompletionEntryDetails
  getQuickInfoAtPosition : String → Nat → Option QuickInfo
  getSignatureHelpItems : String → Nat → Option SignHelpItems
  getOccurrencesAtPosition : String → Nat → Option (List Occurrence)
  getNavigationBarItems : String → Option NavItemList
  getDefinitionAtPosition : String → Nat → Option (List DefinitionTarget)
  getReferencesAtPosition : String → Nat → Option (List DefinitionTarget)
  getFormattingEditsForRange : String → Nat → Nat → TsFormatCodeOptions → Option (List TsTextChange)

/-- Modelled from the spec: the external path helpers of preprocess.ts and
the uri builder (Uri.file(...).toString()), which are not under src/.  The
operations below are parametric in them. -/
structure ExternalPaths where
  getFileFsPath : String → String
  getFilePath : String → String
  uriFile : String → String

/-- Host document identity: uri and language id. -/
structure HostDocument where
  uri : String
  languageId : String
deriving DecidableEq, Repr

/-- Tags for the backing engine methods an operation invokes, in call
order.  getRootFileNames stands for the membership check
(getProgram().getRootFileNames()); the formatting tag also records the
offsets and the settings object passed to the engine. -/
inductive EngineCall where
  | getRootFileNames
  | getSyntacticDiagnostics
  | getSemanticDiagnostics
  | getCompletionsAtPosition
  | getCompletionEntryDetails
  | getQuickInfoAtPosition
  | getSignatureHelpItems
  | getOccurrencesAtPosition
  | getNavigationBarItems
  | getDefinitionAtPosition
  | getReferencesAtPosition
  | getFormattingEditsForRange (start : Nat) (stop : Nat) (settings : TsFormatCodeOptions)
  | discoverComponentsCall
deriving DecidableEq, Repr

/-- Source languageServiceIncludesFile: the normalized file path of the
document uri is among the current root file names of the engine. -/
def languageServiceIncludesFile (P : ExternalPaths) (ls : Engine) (documentUri : String) : Bool :=
  ls.rootFileNames.contains (P.getFilePath documentUri)

/-- Modelled from the spec: the null completion item of the null mode
(nullMode.ts is not under src/), returned by doResolve when the file is not
in the program. -/
def NULL_COMPLETION : CompletionItem :=
  { label := "" }

/-- Modelled from the spec: the null signature help of the null mode
(nullMode.ts is not under src/). -/
def NULL_SIGNATURE : SignatureHelp :=
  { activeSignature := 0, activeParameter := 0, signatures := [] }

/-- Source doValidation.  Every operation below takes the refreshed
synthetic view (scriptDoc) and the live engine (service) that the external
updateCurrentTextDocument returns, and yields its protocol result paired
with the list of engine methods it invoked, in order. -/
def doValidation (P : ExternalPaths) (service : Engine) (scriptDoc : TextDocument)
    (doc : HostDocument) : List Diagnostic × List EngineCall :=
  if languageServiceIncludesFile P service doc.uri then
    let fileFsPath := P.getFileFsPath doc.uri
    let diagnostics := service.getSyntacticDiagnostics fileFsPath ++
      service.getSemanticDiagnostics fileFsPath
    (diagnostics.map (fun diag =>
      { range := convertRange scriptDoc { start := diag.start, length := diag.length }
        severity := .Error
        message := flattenDiagnosticMessageText diag.messageText }),
     [.getRootFileNames, .getSyntacticDiagnostics, .getSemanticDiagnostics])
  else ([], [.getRootFileNames])

/-- Source doComplete: guard, fetch completions, drop the internal bridge
sentinel entry, and build the items with the correlation payload. -/
def doComplete (P : ExternalPaths) (service : Engine) (scriptDoc : TextDocument)
    (doc : HostDocument) (position : Position) : CompletionList × List EngineCall :=
  if languageServiceIncludesFile P service doc.uri then
    let fileFsPath := P.getFileFsPath doc.uri
    let offset := offsetAt scriptDoc position
    match service.getCompletionsAtPosition fileFsPath offset with
    | none => ({ isIncomplete := false, items := [] }, [.getRootFileNames, .getCompletionsAtPosition])
    | some completions =>
      let entries := completions.entries.filter (fun entry => entry.name ≠ "__vueEditorBridge")
      ({ isIncomplete := false
         items := entries.map (fun entry =>
           { uri := some doc.uri
             position := some position
             label := entry.name
             sortText := some entry.sortText
             kind := some (convertKind entry.kind)
             textEdit := entry.replacementSpan.map (fun sp =>
               { range := convertRange scriptDoc sp, newText := entry.name })
             data := some { languageId := doc.languageId, uri := doc.uri, offset := offset } }) },
       [.getRootFileNames, .getCompletionsAtPosition])
  else ({ isIncomplete := false, items := [] }, [.getRootFileNames])

/-- Source doResolve: guard, then look the entry details up by the stored
offset and the item label; on success set detail and documentation and drop
the data payload, otherwise return the item unchanged.  The source reads
item.data.offset unconditionally; an item without a data payload would
throw there, modelled as a none result with an empty call list beyond the
membership check. -/
def doResolve (P : ExternalPaths) (service : Engine) (doc : HostDocument)
    (item : CompletionItem) : Option CompletionItem × List EngineCall :=
  if languageServiceIncludesFile P service doc.uri then
    let fileFsPath := P.getFileFsPath doc.uri
    match item.data with
    | none => (none, [.getRootFileNames])
    | some payload =>
      match service.getCompletionEntryDetails fileFsPath payload.offset item.label with
      | some details =>
        (some { item with
            detail := some (displayPartsToString details.displayParts)
            documentation := some (displayPartsToString details.documentation)
            data := none },
         [.getRootFileNames, .getCompletionEntryDetails])
      | none => (some item, [.getRootFileNames, .getCompletionEntryDetails])
  else (some NULL_COMPLETION, [.getRootFileNames])

/-- Source doHover: guard, fetch quick info, and build the marked contents;
a nonempty documentation string is prepended together with a newline. -/
def doHover (P : ExternalPaths) (service : Engine) (scriptDoc : TextDocument)
    (doc : HostDocument) (position : Position) : Hover × List EngineCall :=
  if languageServiceIncludesFile P service doc.uri then
    let fileFsPath := P.getFileFsPath doc.uri
    match service.getQuickInfoAtPosition fileFsPath (offsetAt scriptDoc position) with
    | some info =>
      let display := displayPartsToString info.displayParts
      let docString := displayPartsToString info.documentation
      let markedContents : List MarkedString :=
        if docString ≠ "" then
          [.plain docString, .plain "\n", .code "ts" display]
        else [.code "ts" display]
      ({ range := some (convertRange scriptDoc info.textSpan), contents := markedContents },
       [.getRootFileNames, .getQuickInfoAtPosition])
    | none => ({ contents := [] }, [.getRootFileNames, .getQuickInfoAtPosition])
  else ({ contents := [] }, [.getRootFileNames])

/-- Label of a signature parameter. -/
def signParameterLabel (p : SignHelpParameter) : String :=
  displayPartsToString p.displayParts

/-- Source signature building loop: parameter labels joined by the
separator between consecutive parameters, wrapped in the prefix and suffix
parts; each parameter also becomes a ParameterInformation. -/
def buildSignatureInformation (item : SignHelpItem) : SignatureInformation :=
  { label := displayPartsToString item.prefixDisplayParts ++
      String.intercalate (displayPartsToString item.separatorDisplayParts)
        (item.parameters.map signParameterLabel) ++
      displayPartsToString item.suffixDisplayParts
    documentation := none
    parameters := item.parameters.map (fun p =>
      { label := signParameterLabel p
        documentation := displayPartsToString p.documentation }) }

/-- Source doSignatureHelp. -/
def doSignatureHelp (P : ExternalPaths) (service : Engine) (scriptDoc : TextDocument)
    (doc : HostDocument) (position : Position) : SignatureHelp × List EngineCall :=
  if languageServiceIncludesFile P service doc.uri then
    let fileFsPath := P.getFileFsPath doc.uri
    match service.getSignatureHelpItems fileFsPath (offsetAt scriptDoc position) with
    | none => (NULL_SIGNATURE, [.getRootFileNames, .getSignatureHelpItems])
    | some signHelp =>
      ({ activeSignature := signHelp.selectedItemIndex
         activeParameter := signHelp.argumentIndex
         signatures := signHelp.items.map buildSignatureInformation },
       [.getRootFileNames, .getSignatureHelpItems])
  else (NULL_SIGNATURE, [.getRootFileNames])

/-- Source findDocumentHighlight. -/
def findDocumentHighlight (P : ExternalPaths) (service : Engine) (scriptDoc : TextDocument)
    (doc : HostDocument) (position : Position) : List DocumentHighlight × List EngineCall :=
  if languageServiceIncludesFile P service doc.uri then
    let fileFsPath := P.getFileFsPath doc.uri
    match service.getOccurrencesAtPosition fileFsPath (offsetAt scriptDoc position) with
    | some occurrences =>
      (occurrences.map (fun entry =>
        { range := convertRange scriptDoc entry.textSpan
          kind := if entry.isWriteAccess then .Write else .Text }),
       [.getRootFileNames, .getOccurrencesAtPosition])
    | none => ([], [.getRootFileNames, .getOccurrencesAtPosition])
  else ([], [.getRootFileNames])

/-- Source findDocumentSymbols: guard, fetch the navigation tree, and run
the deduplicating traversal with an initially undefined container label and
empty shared state. -/
def findDocumentSymbols (P : ExternalPaths) (service : Engine) (scriptDoc : TextDocument)
    (doc : HostDocument) : List SymbolInformation × List EngineCall :=
  if languageServiceIncludesFile P service doc.uri then
    let fileFsPath := P.getFileFsPath doc.uri
    match service.getNavigationBarItems fileFsPath with
    | some items =>
      ((collectSymbolsList doc.uri scriptDoc items none { existing := [], result := [] }).result,
       [.getRootFileNames, .getNavigationBarItems])
    | none => ([], [.getRootFileNames, .getNavigationBarItems])
  else ([], [.getRootFileNames])

/-- Source findDefinition: guard, fetch targets, and for each target build
a location whose uri comes from the target file name but whose range is
resolved against the script document looked up by the file path of the
requesting document (getScriptDocByFsPath fileFsPath); when that lookup
fails nothing is pushed. -/
def findDefinition (P : ExternalPaths) (getScriptDocByFsPath : String → Option TextDocument)
    (service : Engine) (scriptDoc : TextDocument) (doc : HostDocument) (position : Position) :
    List Location × List EngineCall :=
  if languageServiceIncludesFile P service doc.uri then
    let fileFsPath := P.getFileFsPath doc.uri
    match service.getDefinitionAtPosition fileFsPath (offsetAt scriptDoc position) with
    | none => ([], [.getRootFileNames, .getDefinitionAtPosition])
    | some definitions =>
      (definitions.filterMap (fun d =>
        (getScriptDocByFsPath fileFsPath).map (fun definitionTargetDoc =>
          { uri := P.uriFile d.fileName
            range := convertRange definitionTargetDoc d.textSpan })),
       [.getRootFileNames, .getDefinitionAtPosition])
  else ([], [.getRootFileNames])

/-- Source findReferences: same shape as findDefinition over the reference
targets. -/
def findReferences (P : ExternalPaths) (getScriptDocByFsPath : String → Option TextDocument)
    (service : Engine) (scriptDoc : TextDocument) (doc : HostDocument) (position : Position) :
    List Location × List EngineCall :=
  if languageServiceIncludesFile P service doc.uri then
    let fileFsPath := P.getFileFsPath doc.uri
    match service.getReferencesAtPosition fileFsPath (offsetAt scriptDoc position) with
    | none => ([], [.getRootFileNames, .getReferencesAtPosition])
    | some references =>
      (references.filterMap (fun r =>
        (getScriptDocByFsPath fileFsPath).map (fun referenceTargetDoc =>
          { uri := P.uriFile r.fileName
            range := convertRange referenceTargetDoc r.textSpan })),
       [.getRootFileNames, .getReferencesAtPosition])
  else ([], [.getRootFileNames])

/-- Source format: build the settings, convert the range to offsets, ask
the engine for edits, and keep only the edits whose span lies fully inside
the requested offset interval; there is no membership guard. -/
def format (P : ExternalPaths) (jsConfig : JsFormatConfig) (service : Engine)
    (scriptDoc : TextDocument) (doc : HostDocument) (range : Range)
    (formatParams : FormattingOptions) : List TextEdit × List EngineCall :=
  let formatSettings := buildFormatSettings formatParams jsConfig
  let fileFsPath := P.getFileFsPath doc.uri
  let start := offsetAt scriptDoc range.start
  let stop := offsetAt scriptDoc range.stop
  match service.getFormattingEditsForRange fileFsPath start stop formatSettings with
  | some edits =>
    ((edits.filter (fun edit =>
        decide (start ≤ edit.span.start ∧ edit.span.start + edit.span.length ≤ stop))).map
      (fun edit => { range := convertRange scriptDoc edit.span, newText := edit.newText }),
     [.getFormattingEditsForRange start stop formatSettings])
  | none => ([], [.getFormattingEditsForRange start stop formatSettings])

/-- Source findComponents facade method: delegate to the external component
discovery with the engine and the file path, with no membership guard.  The
external module is modelled as the discover argument. -/
def findComponentsMode (P : ExternalPaths) (discover : Engine → String → List ComponentInfo)
    (service : Engine) (doc : HostDocument) : List ComponentInfo × List EngineCall :=
  (discover service (P.getFileFsPath doc.uri), [.discoverComponentsCall])

/-- The workspacePath argument of getJavascriptMode: null, undefined, or a
string. -/
inductive WorkspacePathArg where
  | nullArg
  | undefinedArg
  | strArg (s : String)
deriving DecidableEq, Repr

/-- JavaScript truthiness test the source applies to workspacePath: null,
undefined and the empty string are falsy. -/
def jsFalsy : WorkspacePathArg → Bool
  | .nullArg => true
  | .undefinedArg => true
  | .strArg s => s.isEmpty

/-- Modelled from the spec: the operation surface of the no-op fallback
mode (nullMode.ts is not under src/), extended with the findComponents
operation the source adds to it. -/
structure FallbackMode where
  doValidation : HostDocument → List Diagnostic
  doComplete : HostDocument → Position → CompletionList
  doResolve : HostDocument → CompletionItem → CompletionItem
  doHover : HostDocument → Position → Hover
  doSignatureHelp : HostDocument → Position → SignatureHelp
  findDocumentHighlight : HostDocument → Position → List DocumentHighlight
  findDocumentSymbols : HostDocument → List SymbolInformation
  findDefinition : HostDocument → Position → List Location
  findReferences : HostDocument → Position → List Location
  findComponents : HostDocument → List ComponentInfo

/-- Modelled from the spec: the no-op fallback mode returns the neutral
empty value of every operation. -/
def nullMode : FallbackMode :=
  { doValidation := fun _ => []
    doComplete := fun _ _ => { isIncomplete := false, items := [] }
    doResolve := fun _ _ => NULL_COMPLETION
    doHover := fun _ _ => { contents := [] }
    doSignatureHelp := fun _ _ => NULL_SIGNATURE
    findDocumentHighlight := fun _ _ => []
    findDocumentSymbols := fun _ => []
    findDefinition := fun _ _ => []
    findReferences := fun _ _ => []
    findComponents := fun _ => [] }

/-- Result of constructing the script mode: either the extended fallback
mode (no cache, no service host), or the active mode, which records the
document cache parameters (capacity 10, max age 60) and the workspace path
handed to the service host. -/
inductive JsModeResult where
  | fallback (mode : FallbackMode)
  | active (cacheCapacity : Nat) (cacheMaxAgeSeconds : Nat) (workspacePath : String)

/-- Source getJavascriptMode entry: a falsy workspacePath yields the spread
of nullMode with a findComponents returning the empty list; otherwise the
document cache and the service host are created.  The string extraction in
the active branch is total; the non-string cases cannot reach it. -/
def getJavascriptMode (workspacePath : WorkspacePathArg) : JsModeResult :=
  if jsFalsy workspacePath then
    .fallback { nullMode with findComponents := fun _ => [] }
  else
    .active 10 60 (match workspacePath with | .strArg s => s | _ => "")

/-- Identity path helpers for building concrete instances. -/
def samplePaths : ExternalPaths :=
  { getFileFsPath := fun s => s, getFilePath := fun s => s, uriFile := fun s => s }

/-- A concrete host document. -/
def sampleDoc : HostDocument :=
  { uri := "file:///a.vue", languageId := "vue" }

/-- A concrete two line script document. -/
def sampleScriptDoc : TextDocument :=
  { content := "let x = 1\nlet y = 2\n".toList }

/-- An engine with no root files and no results. -/
def emptyEngine : Engine :=
  { rootFileNames := []
    getSyntacticDiagnostics := fun _ => []
    getSemanticDiagnostics := fun _ => []
    getCompletionsAtPosition := fun _ _ => none
    getCompletionEntryDetails := fun _ _ _ => none
    getQuickInfoAtPosition := fun _ _ => none
    getSignatureHelpItems := fun _ _ => none
    getOccurrencesAtPosition := fun _ _ => none
    getNavigationBarItems := fun _ => none
    getDefinitionAtPosition := fun _ _ => none
    getReferencesAtPosition := fun _ _ => none
    getFormattingEditsForRange := fun _ _ _ _ => none }

/-- A navigation tree with two sibling nodes of identical text, kind and
first span start, each with one distinct child. -/
def navTreeSample : NavItemList :=
  .cons (.mk "a" "var" [{ start := 0, length := 1 }]
      (.cons (.mk "c1" "var" [{ start := 0, length := 1 }] .nil) .nil))
    (.cons (.mk "a" "var" [{ start := 0, length := 1 }]
      (.cons (.mk "c2" "var" [{ start := 2, length := 1 }] .nil) .nil)) .nil)

/-- An engine that reports the sample document and the sample navigation
tree. -/
def navEngine : Engine :=
  { emptyEngine with
      rootFileNames := ["file:///a.vue"]
      getNavigationBarItems := fun _ => some navTreeSample }

/-- Two formatting edits: one exactly matching the requested offsets 0 to
5, one extending one character past the end. -/
def fmtEdits : List TsTextChange :=
  [{ span := { start := 0, length := 5 }, newText := "x" },
   { span := { start := 0, length := 6 }, newText := "y" }]

/-- An engine returning the two sample formatting edits. -/
def fmtEngine : Engine :=
  { emptyEngine with
      rootFileNames := ["file:///a.vue"]
      getFormattingEditsForRange := fun _ _ _ _ => some fmtEdits }

/-- The protocol range resolving to offsets 0 and 5 in the sample script
document. -/
def fmtRange : Range :=
  { start := { line := 0, character := 0 }, stop := { line := 0, character := 5 } }

/-- Concrete host formatting options. -/
def fmtOptions : FormattingOptions :=
  { tabSize := 2, insertSpaces := true, scriptInitialIndent := false }

/-- An engine with entry details for every lookup. -/
def resolveEngine : Engine :=
  { emptyEngine with
      rootFileNames := ["file:///a.vue"]
      getCompletionEntryDetails := fun _ _ _ =>
        some { displayParts := ["sig"], documentation := ["docs"] } }

/-- A completion item carrying a correlation payload. -/
def sampleItem : CompletionItem :=
  { label := "x"
    data := some { languageId := "vue", uri := "file:///a.vue", offset := 3 } }

/-- An engine whose completions contain the internal bridge sentinel and a
normal entry with a replacement span. -/
def completeEngine : Engine :=
  { emptyEngine with
      rootFileNames := ["file:///a.vue"]
      getCompletionsAtPosition := fun _ _ =>
        some { entries :=
          [{ name := "__vueEditorBridge", kind := "function", sortText := "0", replacementSpan := none },
           { name := "x", kind := "var", sortText := "1", replacementSpan := some { start := 0, length := 1 } }] } }

/-- An engine whose definition and reference targets live in another
file. -/
def defnEngine : Engine :=
  { emptyEngine with
      rootFileNames := ["file:///a.vue"]
      getDefinitionAtPosition := fun _ _ =>
        some [{ fileName := "/other/file.ts", textSpan := { start := 2, length := 3 } }]
      getReferencesAtPosition := fun _ _ =>
        some [{ fileName := "/other/file.ts", textSpan := { start := 2, length := 3 } }] }

/-- The behaviour the guard claim asserts: every read operation answers its
documented empty value after the membership check alone, while format and
component discovery call the engine with no membership check on any
input. -/
def guardedEmptyBehaviour (P : ExternalPaths)
    (getScriptDocByFsPath : String → Option TextDocument)
    (discover : Engine → String → List ComponentInfo)
    (service : Engine) (scriptDoc : TextDocument) (doc : HostDocument)
    (position : Position) (item : CompletionItem) (range : Range)
    (formatParams : FormattingOptions) (jsConfig : JsFormatConfig) : Prop :=
  doValidation P service scriptDoc doc = ([], [.getRootFileNames]) ∧
  doComplete P service scriptDoc doc position =
    ({ isIncomplete := false, items := [] }, [.getRootFileNames]) ∧
  doResolve P service doc item = (some NULL_COMPLETION, [.getRootFileNames]) ∧
  doHover P service scriptDoc doc position = ({ contents := [] }, [.getRootFileNames]) ∧
  doSignatureHelp P service scriptDoc doc position = (NULL_SIGNATURE, [.getRootFileNames]) ∧
  findDocumentHighlight P service scriptDoc doc position = ([], [.getRootFileNames]) ∧
  findDocumentSymbols P service scriptDoc doc = ([], [.getRootFileNames]) ∧
  findDefinition P getScriptDocByFsPath service scriptDoc doc position = ([], [.getRootFileNames]) ∧
  findReferences P getScriptDocByFsPath service scriptDoc doc position = ([], [.getRootFileNames]) ∧
  (format P jsConfig service scriptDoc doc range formatParams).2 =
    [.getFormattingEditsForRange (offsetAt scriptDoc range.start) (offsetAt scriptDoc range.stop)
      (buildFormatSettings formatParams jsConfig)] ∧
  findComponentsMode P discover service doc =
    (discover service (P.getFileFsPath doc.uri), [.discoverComponentsCall])

/-- The line index found for any offset is a valid index into a nonempty
line offset list. -/
theorem findLine_lt_length (offs : List Nat) (o : Nat) (h : offs ≠ []) :
    findLine offs o < offs.length := by
  induction offs with
  | nil => exact absurd rfl h
  | cons a rest ih =>
    cases rest with
    | nil => simp [findLine]
    | cons b rest2 =>
      simp only [findLine]
      split
      · simp
      · have hlt := ih (by simp)
        simpa [Nat.succ_lt_succ_iff] using hlt

/-- The start offset of the found line is at most the offset, provided the
first line start already is. -/
theorem getD_findLine_le (tail : List Nat) :
    ∀ (a o : Nat), a ≤ o → (a :: tail).getD (findLine (a :: tail) o) 0 ≤ o := by
  induction tail with
  | nil => intro a o h; simpa [findLine]
  | cons b rest ih =>
    intro a o h
    by_cases hb : o < b
    · simpa [findLine, hb]
    · push_neg at hb
      have := ih b o hb
      simpa [findLine, Nat.not_lt.mpr hb] using this

/-- When the found line is not the last one, the offset lies strictly
before the start of the next line. -/
theorem findLine_next (tail : List Nat) :
    ∀ (a o : Nat), findLine (a :: tail) o + 1 < (a :: tail).length →
      o < (a :: tail).getD (findLine (a :: tail) o + 1) 0 := by
  induction tail with
  | nil => intro a o h; simp at h
  | cons b rest ih =>
    intro a o h
    by_cases hb : o < b
    · simp [findLine, hb]
    · simp only [findLine, if_neg hb] at h ⊢
      have := ih b o (by simpa [Nat.succ_lt_succ_iff] using h)
      simpa using this

/-- Resolving an in-bounds offset to a position and back recovers the
offset. -/
theorem offsetAt_positionAt (d : TextDocument) (o : Nat) (h : o ≤ d.content.length) :
    offsetAt d (positionAt d o) = o := by
  obtain ⟨tail, htail⟩ : ∃ tail, lineOffsets d.content = 0 :: tail := ⟨_, rfl⟩
  have hmin : min o d.content.length = o := Nat.min_eq_left h
  have hlt : findLine (lineOffsets d.content) o < (lineOffsets d.content).length := by
    rw [htail]; exact findLine_lt_length _ o (by simp)
  have hle : (lineOffsets d.content).getD (findLine (lineOffsets d.content) o) 0 ≤ o := by
    rw [htail]; exact getD_findLine_le tail 0 o (Nat.zero_le o)
  simp only [offsetAt, positionAt, hmin]
  rw [if_neg (by omega)]
  split
  next hnext =>
    have honext : o < (lineOffsets d.content).getD (findLine (lineOffsets d.content) o + 1) 0 := by
      rw [htail] at hnext ⊢
      exact findLine_next tail 0 o hnext
    omega
  next hnext => omega

mutual
/-- A signature recorded in the shared state stays recorded through the
traversal of one navigation item. -/
theorem mem_existing_collectSymbols (uri : String) (scriptDoc : TextDocument)
    (i : NavigationBarItem) (cl : Option String) (st : SymTraverseState) (s : String)
    (h : s ∈ st.existing) : s ∈ (collectSymbols uri scriptDoc i cl st).existing :=
  match i with
  | .mk text kind spans childItems => by
    rw [collectSymbols]
    split
    · exact mem_existing_collectSymbolsList uri scriptDoc childItems (some text) _ s
        (by simp [h])
    · exact mem_existing_collectSymbolsList uri scriptDoc childItems cl st s h

/-- A signature recorded in the shared state stays recorded through the
traversal of a navigation item list. -/
theorem mem_existing_collectSymbolsList (uri : String) (scriptDoc : TextDocument)
    (l : NavItemList) (cl : Option String) (st : SymTraverseState) (s : String)
    (h : s ∈ st.existing) : s ∈ (collectSymbolsList uri scriptDoc l cl st).existing :=
  match l with
  | .nil => by rwa [collectSymbolsList]
  | .cons i rest => by
    rw [collectSymbolsList]
    exact mem_existing_collectSymbolsList uri scriptDoc rest cl _ s
      (mem_existing_collectSymbols uri scriptDoc i cl st s h)
end

/-- C1: when the file path of the requesting document is not among the root
files of the backing engine, every read operation (validate, complete,
resolve, hover, signature help, highlight, outline, definition, references)
returns its documented empty value and invokes no engine method beyond the
membership check, while format and component discovery invoke the engine
unconditionally with no membership check. -/
theorem guard_short_circuits (P : ExternalPaths)
    (getScriptDocByFsPath : String → Option TextDocument)
    (discover : Engine → String → List ComponentInfo)
    (service : Engine) (scriptDoc : TextDocument) (doc : HostDocument)
    (position : Position) (item : CompletionItem) (range : Range)
    (formatParams : FormattingOptions) (jsConfig : JsFormatConfig)
    (h : languageServiceIncludesFile P service doc.uri = false) :
    guardedEmptyBehaviour P getScriptDocByFsPath discover service scriptDoc doc
      position item range formatParams jsConfig := by
  refine ⟨?_, ?_, ?_, ?_, ?_, ?_, ?_, ?_, ?_, ?_, ?_⟩
  · simp [doValidation, h]
  · simp [doComplete, h]
  · simp [doResolve, h]
  · simp [doHover, h]
  · simp [doSignatureHelp, h]
  · simp [findDocumentHighlight, h]
  · simp [findDocumentSymbols, h]
  · simp [findDefinition, h]
  · simp [findReferences, h]
  · simp only [format]
    split <;> rfl
  · rfl

/-- Witness for C1 at a concrete engine with an empty root file set. -/
theorem guard_short_circuits_witness :
    languageServiceIncludesFile samplePaths emptyEngine sampleDoc.uri = false ∧
    guardedEmptyBehaviour samplePaths (fun _ => none) (fun _ _ => [])
      emptyEngine sampleScriptDoc sampleDoc { line := 0, character := 0 }
      sampleItem fmtRange fmtOptions {} :=
  ⟨rfl, guard_short_circuits samplePaths (fun _ => none) (fun _ _ => [])
    emptyEngine sampleScriptDoc sampleDoc { line := 0, character := 0 }
    sampleItem fmtRange fmtOptions {} rfl⟩

/-- C2 (amended): for a navigation tree whose top level is two sibling
nodes with identical text, non script kind and first span start, exactly
one outline symbol is emitted for the pair, and the children of both
siblings are still visited; the children of the emitted sibling are
traversed with container label equal to the sibling text, while the
children of the suppressed duplicate keep the container label that was
current at the pair (here the initial undefined label). -/
theorem findDocumentSymbols_duplicate_siblings (P : ExternalPaths) (service : Engine)
    (scriptDoc : TextDocument) (doc : HostDocument) (n k : String) (sp : TextSpan)
    (r : List TextSpan) (c1 c2 : NavItemList)
    (hg : languageServiceIncludesFile P service doc.uri = true)
    (hnav : service.getNavigationBarItems (P.getFileFsPath doc.uri) =
      some (.cons (.mk n k (sp :: r) c1) (.cons (.mk n k (sp :: r) c2) .nil)))
    (hk : k ≠ "script") :
    (findDocumentSymbols P service scriptDoc doc).1 =
      (collectSymbolsList doc.uri scriptDoc c2 none
        (collectSymbolsList doc.uri scriptDoc c1 (some n)
          { existing := [n ++ k ++ toString sp.start]
            result := [{ name := n
                         kind := convertSymbolKind k
                         location := { uri := doc.uri, range := convertRange scriptDoc sp }
                         containerName := none }] })).result := by
  have step1 : collectSymbols doc.uri scriptDoc (.mk n k (sp :: r) c1) none
      { existing := [], result := [] } =
      collectSymbolsList doc.uri scriptDoc c1 (some n)
        { existing := [n ++ k ++ toString sp.start]
          result := [{ name := n
                       kind := convertSymbolKind k
                       location := { uri := doc.uri, range := convertRange scriptDoc sp }
                       containerName := none }] } := by
    simp [collectSymbols, hk]
  have hsig : (n ++ k ++ toString sp.start) ∈
      (collectSymbolsList doc.uri scriptDoc c1 (some n)
        { existing := [n ++ k ++ toString sp.start]
          result := [{ name := n
                       kind := convertSymbolKind k
                       location := { uri := doc.uri, range := convertRange scriptDoc sp }
                       containerName := none }] }).existing :=
    mem_existing_collectSymbolsList _ _ _ _ _ _ (by simp)
  have step2 : collectSymbols doc.uri scriptDoc (.mk n k (sp :: r) c2) none
      (collectSymbolsList doc.uri scriptDoc c1 (some n)
        { existing := [n ++ k ++ toString sp.start]
          result := [{ name := n
                       kind := convertSymbolKind k
                       location := { uri := doc.uri, range := convertRange scriptDoc sp }
                       containerName := none }] }) =
      collectSymbolsList doc.uri scriptDoc c2 none
        (collectSymbolsList doc.uri scriptDoc c1 (some n)
          { existing := [n ++ k ++ toString sp.start]
            result := [{ name := n
                         kind := convertSymbolKind k
                         location := { uri := doc.uri, range := convertRange scriptDoc sp }
                         containerName := none }] }) := by
    rw [collectSymbols]
    simp only [List.headD_cons]
    rw [if_neg]
    intro hc
    exact hc.2 hsig
  simp only [findDocumentSymbols, hg, hnav]
  simp only [collectSymbolsList, step1, step2, if_true]

/-- Counterexample for C2 as stated: on a concrete tree with two duplicate
siblings, the child of the emitted sibling receives container name a while
the child of the suppressed duplicate receives no container name, so the
children of the two siblings do not receive the same containerName. -/
theorem findDocumentSymbols_duplicate_siblings_counterexample :
    (findDocumentSymbols samplePaths navEngine sampleScriptDoc sampleDoc).1.map
        (fun s => (s.name, s.containerName)) =
      [("a", none), ("c1", some "a"), ("c2", none)] ∧
    (some "a" : Option String) ≠ none := by
  exact ⟨by decide, by decide⟩

/-- Witness for the amended C2 at the concrete sample tree. -/
theorem findDocumentSymbols_duplicate_siblings_witness :
    languageServiceIncludesFile samplePaths navEngine sampleDoc.uri = true ∧
    navEngine.getNavigationBarItems (samplePaths.getFileFsPath sampleDoc.uri) =
      some (.cons (.mk "a" "var" ({ start := 0, length := 1 } :: []) (.cons (.mk "c1" "var" [{ start := 0, length := 1 }] .nil) .nil))
        (.cons (.mk "a" "var" ({ start := 0, length := 1 } :: []) (.cons (.mk "c2" "var" [{ start := 2, length := 1 }] .nil) .nil)) .nil)) ∧
    ("var" : String) ≠ "script" ∧
    (findDocumentSymbols samplePaths navEngine sampleScriptDoc sampleDoc).1 =
      (collectSymbolsList sampleDoc.uri sampleScriptDoc
        (.cons (.mk "c2" "var" [{ start := 2, length := 1 }] .nil) .nil) none
        (collectSymbolsList sampleDoc.uri sampleScriptDoc
          (.cons (.mk "c1" "var" [{ start := 0, length := 1 }] .nil) .nil) (some "a")
          { existing := ["a" ++ "var" ++ toString (TextSpan.mk 0 1).start]
            result := [{ name := "a"
                         kind := convertSymbolKind "var"
                         location := { uri := sampleDoc.uri
                                       range := convertRange sampleScriptDoc { start := 0, length := 1 } }
                         containerName := none }] })).result :=
  ⟨rfl, rfl, by decide,
    findDocumentSymbols_duplicate_siblings samplePaths navEngine sampleScriptDoc sampleDoc
      "a" "var" { start := 0, length := 1 } []
      (.cons (.mk "c1" "var" [{ start := 0, length := 1 }] .nil) .nil)
      (.cons (.mk "c2" "var" [{ start := 2, length := 1 }] .nil) .nil)
      rfl rfl (by decide)⟩

/-- C3: format keeps exactly the engine edits whose span is fully contained
in the requested offset interval; an edit reaching one character past the
range end fails the containment filter, an edit exactly matching the bounds
passes it and its conversion appears in the result, and an absent engine
result yields the empty list. -/
theorem format_clips_edits (P : ExternalPaths) (jsConfig : JsFormatConfig)
    (service : Engine) (scriptDoc : TextDocument) (doc : HostDocument)
    (range : Range) (formatParams : FormattingOptions) :
    (∀ edits,
      service.getFormattingEditsForRange (P.getFileFsPath doc.uri)
          (offsetAt scriptDoc range.start) (offsetAt scriptDoc range.stop)
          (buildFormatSettings formatParams jsConfig) = some edits →
      (format P jsConfig service scriptDoc doc range formatParams).1 =
        (edits.filter (fun edit =>
          decide (offsetAt scriptDoc range.start ≤ edit.span.start ∧
            edit.span.start + edit.span.length ≤ offsetAt scriptDoc range.stop))).map
          (fun edit => { range := convertRange scriptDoc edit.span, newText := edit.newText }) ∧
      (∀ e ∈ edits, e.span.start + e.span.length = offsetAt scriptDoc range.stop + 1 →
        e ∉ edits.filter (fun edit =>
          decide (offsetAt scriptDoc range.start ≤ edit.span.start ∧
            edit.span.start + edit.span.length ≤ offsetAt scriptDoc range.stop))) ∧
      (∀ e ∈ edits, e.span.start = offsetAt scriptDoc range.start →
        e.span.start + e.span.length = offsetAt scriptDoc range.stop →
        e ∈ edits.filter (fun edit =>
          decide (offsetAt scriptDoc range.start ≤ edit.span.start ∧
            edit.span.start + edit.span.length ≤ offsetAt scriptDoc range.stop)) ∧
        ({ range := convertRange scriptDoc e.span, newText := e.newText } : TextEdit) ∈
          (format P jsConfig service scriptDoc doc range formatParams).1)) ∧
    (service.getFormattingEditsForRange (P.getFileFsPath doc.uri)
        (offsetAt scriptDoc range.start) (offsetAt scriptDoc range.stop)
        (buildFormatSettings formatParams jsConfig) = none →
      (format P jsConfig service scriptDoc doc range formatParams).1 = []) := by
  constructor
  · intro edits h
    have hres : (format P jsConfig service scriptDoc doc range formatParams).1 =
        (edits.filter (fun edit =>
          decide (offsetAt scriptDoc range.start ≤ edit.span.start ∧
            edit.span.start + edit.span.length ≤ offsetAt scriptDoc range.stop))).map
          (fun edit => { range := convertRange scriptDoc edit.span, newText := edit.newText }) := by
      simp only [format, h]
    refine ⟨hres, ?_, ?_⟩
    · intro e _ hpast hmem
      have := (List.mem_filter.mp hmem).2
      simp only [decide_eq_true_eq] at this
      omega
    · intro e hmem hstart hstop
      have hin : e ∈ edits.filter (fun edit =>
          decide (offsetAt scriptDoc range.start ≤ edit.span.start ∧
            edit.span.start + edit.span.length ≤ offsetAt scriptDoc range.stop)) := by
        refine List.mem_filter.mpr ⟨hmem, ?_⟩
        simp only [decide_eq_true_eq]
        omega
      exact ⟨hin, by rw [hres]; exact List.mem_map_of_mem _ hin⟩
  · intro h
    simp only [format, h]

/-- Witness for C3 at a concrete engine returning one exactly matching edit
and one edit reaching one character past the range end. -/
theorem format_clips_edits_witness :
    fmtEngine.getFormattingEditsForRange (samplePaths.getFileFsPath sampleDoc.uri)
        (offsetAt sampleScriptDoc fmtRange.start) (offsetAt sampleScriptDoc fmtRange.stop)
        (buildFormatSettings fmtOptions {}) = some fmtEdits ∧
    (format samplePaths {} fmtEngine sampleScriptDoc sampleDoc fmtRange fmtOptions).1 =
      (fmtEdits.filter (fun edit =>
        decide (offsetAt sampleScriptDoc fmtRange.start ≤ edit.span.start ∧
          edit.span.start + edit.span.length ≤ offsetAt sampleScriptDoc fmtRange.stop))).map
        (fun edit => { range := convertRange sampleScriptDoc edit.span, newText := edit.newText }) ∧
    (∀ e ∈ fmtEdits, e.span.start + e.span.length = offsetAt sampleScriptDoc fmtRange.stop + 1 →
      e ∉ fmtEdits.filter (fun edit =>
        decide (offsetAt sampleScriptDoc fmtRange.start ≤ edit.span.start ∧
          edit.span.start + edit.span.length ≤ offsetAt sampleScriptDoc fmtRange.stop))) ∧
    (∀ e ∈ fmtEdits, e.span.start = offsetAt sampleScriptDoc fmtRange.start →
      e.span.start + e.span.length = offsetAt sampleScriptDoc fmtRange.stop →
      e ∈ fmtEdits.filter (fun edit =>
        decide (offsetAt sampleScriptDoc fmtRange.start ≤ edit.span.start ∧
          edit.span.start + edit.span.length ≤ offsetAt sampleScriptDoc fmtRange.stop)) ∧
      ({ range := convertRange sampleScriptDoc e.span, newText := e.newText } : TextEdit) ∈
        (format samplePaths {} fmtEngine sampleScriptDoc sampleDoc fmtRange fmtOptions).1) :=
  ⟨rfl, (format_clips_edits samplePaths {} fmtEngine sampleScriptDoc sampleDoc
    fmtRange fmtOptions).1 fmtEdits rfl⟩

/-- C4 (amended): whenever the language specific configuration defines
InsertSpaceBeforeFunctionParenthesis, the settings object format passes to
the backing engine has InsertSpaceAfterFunctionKeywordForAnonymousFunctions
equal to InsertSpaceBeforeFunctionParenthesis, both holding the configured
value; and format always passes exactly that settings object. -/
theorem format_settings_consistent (formatParams : FormattingOptions)
    (jsConfig : JsFormatConfig) (b : Bool)
    (h : jsConfig.InsertSpaceBeforeFunctionParenthesis = some b) :
    (buildFormatSettings formatParams jsConfig).InsertSpaceAfterFunctionKeywordForAnonymousFunctions =
      (buildFormatSettings formatParams jsConfig).InsertSpaceBeforeFunctionParenthesis ∧
    (buildFormatSettings formatParams jsConfig).InsertSpaceAfterFunctionKeywordForAnonymousFunctions =
      some b ∧
    ∀ (P : ExternalPaths) (service : Engine) (scriptDoc : TextDocument)
      (doc : HostDocument) (range : Range),
      (format P jsConfig service scriptDoc doc range formatParams).2 =
        [.getFormattingEditsForRange (offsetAt scriptDoc range.start)
          (offsetAt scriptDoc range.stop) (buildFormatSettings formatParams jsConfig)] := by
  refine ⟨?_, ?_, ?_⟩
  · simp [buildFormatSettings, convertOptions, h]
  · simp [buildFormatSettings, h]
  · intro P service scriptDoc doc range
    simp only [format]
    split <;> rfl

/-- Counterexample for C4 as stated: with an empty language specific
configuration the settings object passed to the engine by a concrete format
call carries undefined in the anonymous function spacing field while the
function parenthesis field holds the default true, so the two fields
differ. -/
theorem format_settings_consistent_counterexample :
    (format samplePaths {} fmtEngine sampleScriptDoc sampleDoc fmtRange fmtOptions).2 =
      [.getFormattingEditsForRange 0 5 (buildFormatSettings fmtOptions {})] ∧
    (buildFormatSettings fmtOptions {}).InsertSpaceAfterFunctionKeywordForAnonymousFunctions = none ∧
    (buildFormatSettings fmtOptions {}).InsertSpaceBeforeFunctionParenthesis = some true ∧
    (buildFormatSettings fmtOptions {}).InsertSpaceAfterFunctionKeywordForAnonymousFunctions ≠
      (buildFormatSettings fmtOptions {}).InsertSpaceBeforeFunctionParenthesis := by
  refine ⟨rfl, rfl, rfl, by decide⟩

/-- Witness for the amended C4 at a concrete configuration that defines the
function parenthesis field. -/
theorem format_settings_consistent_witness :
    ({ InsertSpaceBeforeFunctionParenthesis := some false } : JsFormatConfig).InsertSpaceBeforeFunctionParenthesis = some false ∧
    ((buildFormatSettings fmtOptions { InsertSpaceBeforeFunctionParenthesis := some false }).InsertSpaceAfterFunctionKeywordForAnonymousFunctions =
      (buildFormatSettings fmtOptions { InsertSpaceBeforeFunctionParenthesis := some false }).InsertSpaceBeforeFunctionParenthesis ∧
    (buildFormatSettings fmtOptions { InsertSpaceBeforeFunctionParenthesis := some false }).InsertSpaceAfterFunctionKeywordForAnonymousFunctions =
      some false ∧
    ∀ (P : ExternalPaths) (service : Engine) (scriptDoc : TextDocument)
      (doc : HostDocument) (range : Range),
      (format P { InsertSpaceBeforeFunctionParenthesis := some false } service scriptDoc doc range fmtOptions).2 =
        [.getFormattingEditsForRange (offsetAt scriptDoc range.start)
          (offsetAt scriptDoc range.stop)
          (buildFormatSettings fmtOptions { InsertSpaceBeforeFunctionParenthesis := some false })]) :=
  ⟨rfl, format_settings_consistent fmtOptions
    { InsertSpaceBeforeFunctionParenthesis := some false } false rfl⟩

/-- C5: doResolve looks the entry details up by the stored offset of the
correlation payload and the item label; when details are found it returns
the item with detail set to the formatted signature text, documentation set
to the formatted doc comment text and the payload removed; when they are
not found it returns the item unchanged, still carrying its payload. -/
theorem doResolve_details (P : ExternalPaths) (service : Engine) (doc : HostDocument)
    (item : CompletionItem) (payload : CompletionItemData)
    (hg : languageServiceIncludesFile P service doc.uri = true)
    (hd : item.data = some payload) :
    (∀ details,
      service.getCompletionEntryDetails (P.getFileFsPath doc.uri) payload.offset item.label =
        some details →
      doResolve P service doc item =
        (some { item with
            detail := some (displayPartsToString details.displayParts)
            documentation := some (displayPartsToString details.documentation)
            data := none },
         [.getRootFileNames, .getCompletionEntryDetails])) ∧
    (service.getCompletionEntryDetails (P.getFileFsPath doc.uri) payload.offset item.label =
        none →
      doResolve P service doc item = (some item, [.getRootFileNames, .getCompletionEntryDetails]) ∧
      item.data = some payload) := by
  constructor
  · intro details h
    simp [doResolve, hg, hd, h]
  · intro h
    exact ⟨by simp [doResolve, hg, hd, h], hd⟩

/-- Witness for C5 at a concrete engine holding details for the stored
offset and label. -/
theorem doResolve_details_witness :
    languageServiceIncludesFile samplePaths resolveEngine sampleDoc.uri = true ∧
    sampleItem.data = some { languageId := "vue", uri := "file:///a.vue", offset := 3 } ∧
    resolveEngine.getCompletionEntryDetails (samplePaths.getFileFsPath sampleDoc.uri)
      ({ languageId := "vue", uri := "file:///a.vue", offset := 3 } : CompletionItemData).offset
      sampleItem.label = some { displayParts := ["sig"], documentation := ["docs"] } ∧
    doResolve samplePaths resolveEngine sampleDoc sampleItem =
      (some { sampleItem with
          detail := some (displayPartsToString ["sig"])
          documentation := some (displayPartsToString ["docs"])
          data := none },
       [.getRootFileNames, .getCompletionEntryDetails]) :=
  ⟨rfl, rfl, rfl,
    (doResolve_details samplePaths resolveEngine sampleDoc sampleItem
      { languageId := "vue", uri := "file:///a.vue", offset := 3 } rfl rfl).1
      { displayParts := ["sig"], documentation := ["docs"] } rfl⟩

/-- C6: for a document in the program, doComplete returns a non incomplete
list, no returned item is labelled with the internal bridge sentinel, and
every item comes from a non sentinel engine entry with label, sort text,
classified kind, a text edit exactly when the entry has a replacement span,
and the correlation payload of language id, uri and request offset. -/
theorem doComplete_items (P : ExternalPaths) (service : Engine) (scriptDoc : TextDocument)
    (doc : HostDocument) (position : Position)
    (hg : languageServiceIncludesFile P service doc.uri = true) :
    (doComplete P service scriptDoc doc position).1.isIncomplete = false ∧
    ∀ item ∈ (doComplete P service scriptDoc doc position).1.items,
      item.label ≠ "__vueEditorBridge" ∧
      ∃ completions entry,
        service.getCompletionsAtPosition (P.getFileFsPath doc.uri)
          (offsetAt scriptDoc position) = some completions ∧
        entry ∈ completions.entries ∧
        entry.name ≠ "__vueEditorBridge" ∧
        item.label = entry.name ∧
        item.sortText = some entry.sortText ∧
        item.kind = some (convertKind entry.kind) ∧
        item.textEdit = entry.replacementSpan.map (fun sp =>
          { range := convertRange scriptDoc sp, newText := entry.name }) ∧
        item.data = some { languageId := doc.languageId, uri := doc.uri
                           offset := offsetAt scriptDoc position } := by
  cases hc : service.getCompletionsAtPosition (P.getFileFsPath doc.uri)
      (offsetAt scriptDoc position) with
  | none =>
    refine ⟨by simp [doComplete, hg, hc], ?_⟩
    intro item hmem
    simp [doComplete, hg, hc] at hmem
  | some completions =>
    refine ⟨by simp [doComplete, hg, hc], ?_⟩
    intro item hmem
    simp only [doComplete, hg, if_true, hc, List.mem_map, List.mem_filter] at hmem
    obtain ⟨entry, ⟨hentry, hname⟩, hitem⟩ := hmem
    subst hitem
    have hname' : entry.name ≠ "__vueEditorBridge" := by simpa using hname
    exact ⟨hname', completions, entry, rfl, hentry, hname', rfl, rfl, rfl, rfl, rfl⟩

/-- Witness for C6 at a concrete engine whose completions hold the sentinel
and a normal entry. -/
theorem doComplete_items_witness :
    languageServiceIncludesFile samplePaths completeEngine sampleDoc.uri = true ∧
    ((doComplete samplePaths completeEngine sampleScriptDoc sampleDoc
        { line := 0, character := 2 }).1.isIncomplete = false ∧
    ∀ item ∈ (doComplete samplePaths completeEngine sampleScriptDoc sampleDoc
        { line := 0, character := 2 }).1.items,
      item.label ≠ "__vueEditorBridge" ∧
      ∃ completions entry,
        completeEngine.getCompletionsAtPosition (samplePaths.getFileFsPath sampleDoc.uri)
          (offsetAt sampleScriptDoc { line := 0, character := 2 }) = some completions ∧
        entry ∈ completions.entries ∧
        entry.name ≠ "__vueEditorBridge" ∧
        item.label = entry.name ∧
        item.sortText = some entry.sortText ∧
        item.kind = some (convertKind entry.kind) ∧
        item.textEdit = entry.replacementSpan.map (fun sp =>
          { range := convertRange sampleScriptDoc sp, newText := entry.name }) ∧
        item.data = some { languageId := sampleDoc.languageId, uri := sampleDoc.uri
                           offset := offsetAt sampleScriptDoc { line := 0, character := 2 } }) :=
  ⟨rfl, doComplete_items samplePaths completeEngine sampleScriptDoc sampleDoc
    { line := 0, character := 2 } rfl⟩

/-- C7: both classifiers are total functions of the input string; the table
entries hold exactly as listed, and every string outside the tables yields
Property from the completion classifier and Variable from the symbol
classifier. -/
theorem classifier_tables_total :
    (convertKind "primitive type" = .Keyword ∧ convertKind "keyword" = .Keyword ∧
     convertKind "var" = .Variable ∧ convertKind "local var" = .Variable ∧
     convertKind "property" = .Field ∧ convertKind "getter" = .Field ∧
     convertKind "setter" = .Field ∧ convertKind "function" = .Function ∧
     convertKind "method" = .Function ∧ convertKind "construct" = .Function ∧
     convertKind "call" = .Function ∧ convertKind "index" = .Function ∧
     convertKind "enum" = .Enum ∧ convertKind "module" = .Module ∧
     convertKind "class" = .Class ∧ convertKind "interface" = .Interface ∧
     convertKind "warning" = .File) ∧
    (convertSymbolKind "var" = .Variable ∧ convertSymbolKind "local var" = .Variable ∧
     convertSymbolKind "const" = .Variable ∧ convertSymbolKind "function" = .Function ∧
     convertSymbolKind "local function" = .Function ∧ convertSymbolKind "enum" = .Enum ∧
     convertSymbolKind "module" = .Module ∧ convertSymbolKind "class" = .Class ∧
     convertSymbolKind "interface" = .Interface ∧ convertSymbolKind "method" = .Method ∧
     convertSymbolKind "property" = .Property ∧ convertSymbolKind "getter" = .Property ∧
     convertSymbolKind "setter" = .Property) ∧
    (∀ s, s ∉ convertKindKeys → convertKind s = .Property) ∧
    (∀ s, s ∉ convertSymbolKindKeys → convertSymbolKind s = .Variable) := by
  refine ⟨by decide, by decide, ?_, ?_⟩
  · intro s h
    simp only [convertKindKeys, List.mem_cons, List.not_mem_nil, or_false, not_or] at h
    obtain ⟨h1, h2, h3, h4, h5, h6, h7, h8, h9, h10, h11, h12, h13, h14, h15, h16, h17⟩ := h
    simp [convertKind, h1, h2, h3, h4, h5, h6, h7, h8, h9, h10, h11, h12, h13, h14, h15, h16, h17]
  · intro s h
    simp only [convertSymbolKindKeys, List.mem_cons, List.not_mem_nil, or_false, not_or] at h
    obtain ⟨h1, h2, h3, h4, h5, h6, h7, h8, h9, h10, h11, h12, h13⟩ := h
    simp [convertSymbolKind, h1, h2, h3, h4, h5, h6, h7, h8, h9, h10, h11, h12, h13]

/-- Witness for C7 at a concrete string outside both tables. -/
theorem classifier_tables_total_witness :
    ("unknown kind" ∉ convertKindKeys) ∧ convertKind "unknown kind" = .Property ∧
    ("unknown kind" ∉ convertSymbolKindKeys) ∧ convertSymbolKind "unknown kind" = .Variable :=
  ⟨by decide, classifier_tables_total.2.2.1 "unknown kind" (by decide),
   by decide, classifier_tables_total.2.2.2 "unknown kind" (by decide)⟩

/-- C8: for every span lying fully inside the document content, converting
the span to a range and resolving the range ends back to offsets recovers
exactly the pair start and start plus length. -/
theorem convertRange_roundtrip (d : TextDocument) (span : TextSpan)
    (h : span.start + span.length ≤ d.content.length) :
    offsetAt d (convertRange d span).start = span.start ∧
    offsetAt d (convertRange d span).stop = span.start + span.length :=
  ⟨offsetAt_positionAt d span.start (le_trans (Nat.le_add_right _ _) h),
   offsetAt_positionAt d (span.start + span.length) h⟩

/-- Witness for C8 at a concrete span crossing the newline of the sample
document. -/
theorem convertRange_roundtrip_witness :
    ((3 : Nat) + 10 ≤ sampleScriptDoc.content.length) ∧
    (offsetAt sampleScriptDoc (convertRange sampleScriptDoc { start := 3, length := 10 }).start = 3 ∧
     offsetAt sampleScriptDoc (convertRange sampleScriptDoc { start := 3, length := 10 }).stop = 3 + 10) :=
  ⟨by decide, convertRange_roundtrip sampleScriptDoc { start := 3, length := 10 } (by decide)⟩

/-- A filterMap whose function always returns some is a map. -/
theorem filterMap_some_map {α β : Type} (f : α → β) (l : List α) :
    l.filterMap (fun a => some (f a)) = l.map f := by
  induction l with
  | nil => rfl
  | cons a t ih => simp [List.filterMap_cons, ih]

/-- C9: in findDefinition and findReferences every returned location takes
its uri from the target file name while its range is resolved against the
script document looked up by the file path of the requesting document, even
for targets in other files; and when that lookup fails the result is empty
although the engine returned targets. -/
theorem find_targets_use_requesting_doc (P : ExternalPaths)
    (getScriptDocByFsPath : String → Option TextDocument) (service : Engine)
    (scriptDoc : TextDocument) (doc : HostDocument) (position : Position)
    (hg : languageServiceIncludesFile P service doc.uri = true) :
    (∀ defs, service.getDefinitionAtPosition (P.getFileFsPath doc.uri)
        (offsetAt scriptDoc position) = some defs →
      (getScriptDocByFsPath (P.getFileFsPath doc.uri) = none →
        (findDefinition P getScriptDocByFsPath service scriptDoc doc position).1 = []) ∧
      (∀ targetDoc, getScriptDocByFsPath (P.getFileFsPath doc.uri) = some targetDoc →
        (findDefinition P getScriptDocByFsPath service scriptDoc doc position).1 =
          defs.map (fun d =>
            { uri := P.uriFile d.fileName, range := convertRange targetDoc d.textSpan }))) ∧
    (∀ refs, service.getReferencesAtPosition (P.getFileFsPath doc.uri)
        (offsetAt scriptDoc position) = some refs →
      (getScriptDocByFsPath (P.getFileFsPath doc.uri) = none →
        (findReferences P getScriptDocByFsPath service scriptDoc doc position).1 = []) ∧
      (∀ targetDoc, getScriptDocByFsPath (P.getFileFsPath doc.uri) = some targetDoc →
        (findReferences P getScriptDocByFsPath service scriptDoc doc position).1 =
          refs.map (fun r =>
            { uri := P.uriFile r.fileName, range := convertRange targetDoc r.textSpan }))) := by
  constructor
  · intro defs hdefs
    constructor
    · intro hl
      simp [findDefinition, hg, hdefs, hl]
    · intro targetDoc hl
      simp only [findDefinition, hg, if_true, hdefs, hl, Option.map_some']
      exact filterMap_some_map _ defs
  · intro refs hrefs
    constructor
    · intro hl
      simp [findReferences, hg, hrefs, hl]
    · intro targetDoc hl
      simp only [findReferences, hg, if_true, hrefs, hl, Option.map_some']
      exact filterMap_some_map _ refs

/-- Witness for C9 at a concrete engine whose single target lives in
another file, with the script document lookup succeeding on the requesting
path. -/
theorem find_targets_use_requesting_doc_witness :
    languageServiceIncludesFile samplePaths defnEngine sampleDoc.uri = true ∧
    defnEngine.getDefinitionAtPosition (samplePaths.getFileFsPath sampleDoc.uri)
      (offsetAt sampleScriptDoc { line := 0, character := 4 }) =
      some [{ fileName := "/other/file.ts", textSpan := { start := 2, length := 3 } }] ∧
    (fun _ => some sampleScriptDoc : String → Option TextDocument)
      (samplePaths.getFileFsPath sampleDoc.uri) = some sampleScriptDoc ∧
    (findDefinition samplePaths (fun _ => some sampleScriptDoc) defnEngine sampleScriptDoc
        sampleDoc { line := 0, character := 4 }).1 =
      ([{ fileName := "/other/file.ts", textSpan := { start := 2, length := 3 } }] :
          List DefinitionTarget).map (fun d =>
        { uri := samplePaths.uriFile d.fileName
          range := convertRange sampleScriptDoc d.textSpan }) :=
  ⟨rfl, rfl, rfl,
    ((find_targets_use_requesting_doc samplePaths (fun _ => some sampleScriptDoc) defnEngine
      sampleScriptDoc sampleDoc { line := 0, character := 4 } rfl).1
      [{ fileName := "/other/file.ts", textSpan := { start := 2, length := 3 } }] rfl).2
      sampleScriptDoc rfl⟩

/-- C10: a null, undefined or empty workspace path makes getJavascriptMode
return the no-op fallback mode extended with a findComponents operation
returning the empty list for every document, creating no document cache and
no service host. -/
theorem getJavascriptMode_fallback (workspacePath : WorkspacePathArg)
    (h : jsFalsy workspacePath = true) :
    getJavascriptMode workspacePath =
      .fallback { nullMode with findComponents := fun _ => [] } ∧
    ∀ mode document, getJavascriptMode workspacePath = .fallback mode →
      mode.findComponents document = [] := by
  have hmain : getJavascriptMode workspacePath =
      .fallback { nullMode with findComponents := fun _ => [] } := by
    simp [getJavascriptMode, h]
  refine ⟨hmain, ?_⟩
  intro mode document hm
  rw [hmain] at hm
  cases hm
  rfl

/-- Witness for C10 at the null workspace path. -/
theorem getJavascriptMode_fallback_witness :
    jsFalsy .nullArg = true ∧
    (getJavascriptMode .nullArg =
      .fallback { nullMode with findComponents := fun _ => [] } ∧
    ∀ mode document, getJavascriptMode .nullArg = .fallback mode →
      mode.findComponents document = []) :=
  ⟨rfl, getJavascriptMode_fallback .nullArg rfl⟩
